import Mathlib

/-!
Verification of the intraday PnL position engine
(`scripts/4_pnl_processor_1min_closing.py`, `scripts/5_pnl_processor_1min_ohlc.py`)
and the drawdown-duration statistic of the expectancy summarizer
(`scripts/7_expectancy_calc.py`).

Python floats are modelled as exact rationals (ℚ), Python ints as ℤ/ℕ.
Python `dict` inventories are modelled as insertion-ordered association
lists (updates keep the entry position, new keys are appended, matching
CPython dict semantics).  Python's `round(x, 2)` (round half to even) is
modelled exactly over ℚ.
-/

/-! ### Time-label rendering

`current_time.strftime('%I:%M:%S %p').lstrip('0')` and
`current_time.strftime('%I:%M %p').lstrip('0')` from the source, for a
cursor at whole-minute resolution (`second=0, microsecond=0`).  A minute
of the day is a `Nat` (minutes since midnight). -/

/-- Two-digit zero-padded rendering used by `strftime` fields `%I`/`%M`. -/
def pad2 (n : Nat) : String :=
  if n < 10 then "0" ++ toString n else toString n

/-- `%I`: hour on the 12-hour clock, in 1..12. -/
def hour12 (h : Nat) : Nat :=
  if h % 12 = 0 then 12 else h % 12

/-- `%p`: AM/PM marker. -/
def meridiem (h : Nat) : String :=
  if h < 12 then "AM" else "PM"

/-- Python `str.lstrip('0')`: removes every leading `'0'` character. -/
def lstrip0 (s : String) : String :=
  String.mk (s.data.dropWhile (fun c => c = '0'))

/-- `strftime('%I:%M:%S %p')` of a cursor at minute `m` of the day
(seconds are always `00` because the cursor is truncated to the minute). -/
def clockWithSeconds (m : Nat) : String :=
  pad2 (hour12 (m / 60)) ++ ":" ++ pad2 (m % 60) ++ ":00 " ++ meridiem (m / 60)

/-- `strftime('%I:%M %p')` of a cursor at minute `m` of the day. -/
def clockNoSeconds (m : Nat) : String :=
  pad2 (hour12 (m / 60)) ++ ":" ++ pad2 (m % 60) ++ " " ++ meridiem (m / 60)

/-- `lookup_ts = f"{t_date} {time_str_db}"`: the key used to query the
cached market bars (`ohlc_lookup`). -/
def timeLabelDB (tDate : String) (m : Nat) : String :=
  tDate ++ " " ++ lstrip0 (clockWithSeconds m)

/-- `current_time.strftime('%I:%M %p').lstrip('0')`: the `time` field of
an emitted PnL point. -/
def timeLabelOut (m : Nat) : String :=
  lstrip0 (clockNoSeconds m)

/-! ### Data model -/

/-- Trade direction as stored in `txn_type` (`'B'` / `'S'`). -/
inductive TType where
  | B : TType
  | S : TType
deriving DecidableEq, Repr

/-- Position side (`'LONG'` / `'SHORT'` strings in the source). -/
inductive Side where
  | LONG : Side
  | SHORT : Side
deriving DecidableEq, Repr

/-- Flip of a side: `'SHORT' if inv['side'] == 'LONG' else 'LONG'`. -/
def oppSide : Side → Side
  | Side.LONG => Side.SHORT
  | Side.SHORT => Side.LONG

/-- One inventory entry `{'qty': .., 'avg_price': .., 'side': ..}`.
`qty` is a Python int, so it is modelled as ℤ (its non-negativity is an
invariant to be proved, not a typing assumption). -/
structure Pos where
  qty : Int
  avg_price : ℚ
  side : Side
deriving DecidableEq, Repr

/-- One row of the sorted trade frame: resolved symbol, `txn_type`,
`price`, raw `quantity` (possibly negative in the source data, coerced by
`int(abs(..))`), and the timestamp in seconds since midnight. -/
structure Trade where
  inst : String
  t_type : TType
  price : ℚ
  quantity : Int
  tsec : Nat
deriving DecidableEq, Repr

/-- The `inventory` dict: insertion-ordered association list. -/
abbrev Inventory := List (String × Pos)

/-- Dict lookup `inventory[inst]` / membership `inst in inventory`. -/
def lookupInv (inv : Inventory) (k : String) : Option Pos :=
  (inv.find? (fun e => e.1 = k)).map (fun e => e.2)

/-- Dict write `inventory[inst] = pos`: replaces in place when the key is
present, appends otherwise (CPython dict order). -/
def setInv (inv : Inventory) (k : String) (p : Pos) : Inventory :=
  if inv.any (fun e => e.1 = k) then
    inv.map (fun e => if e.1 = k then (k, p) else e)
  else
    inv ++ [(k, p)]

/-! ### Trade application (lines 168-191 of the close-only source; the
OHLC variant lines 162-185 are textually identical) -/

/-- Applies one transaction row to `(inventory, realized_pnl_bucket)`. -/
def applyTrade (inv : Inventory) (realized : ℚ) (tr : Trade) : Inventory × ℚ :=
  let t_qty : Int := |tr.quantity|
  match lookupInv inv tr.inst with
  | none =>
      (setInv inv tr.inst
        ⟨t_qty, tr.price, if tr.t_type = TType.B then Side.LONG else Side.SHORT⟩, realized)
  | some invp =>
      if invp.qty = 0 then
        (setInv inv tr.inst
          ⟨t_qty, tr.price, if tr.t_type = TType.B then Side.LONG else Side.SHORT⟩, realized)
      else if (invp.side = Side.LONG ∧ tr.t_type = TType.B)
           ∨ (invp.side = Side.SHORT ∧ tr.t_type = TType.S) then
        let new_total := invp.qty + t_qty
        (setInv inv tr.inst
          ⟨new_total,
           (invp.avg_price * (invp.qty : ℚ) + tr.price * (t_qty : ℚ)) / (new_total : ℚ),
           invp.side⟩, realized)
      else if invp.qty < t_qty then
        let excess_qty := t_qty - invp.qty
        let pnl_mult : ℚ := if invp.side = Side.LONG then 1 else -1
        (setInv inv tr.inst ⟨excess_qty, tr.price, oppSide invp.side⟩,
         realized + (tr.price - invp.avg_price) * (invp.qty : ℚ) * pnl_mult)
      else
        let pnl_mult : ℚ := if invp.side = Side.LONG then 1 else -1
        (setInv inv tr.inst ⟨invp.qty - t_qty, invp.avg_price, invp.side⟩,
         realized + (tr.price - invp.avg_price) * (t_qty : ℚ) * pnl_mult)

/-! ### Rounding: Python `round(x, 2)` over exact rationals -/

/-- Round to the nearest integer, ties to even (Python `round`). -/
def roundHalfEven (q : ℚ) : ℤ :=
  if q - ⌊q⌋ < 1/2 then ⌊q⌋
  else if 1/2 < q - ⌊q⌋ then ⌊q⌋ + 1
  else if ⌊q⌋ % 2 = 0 then ⌊q⌋ else ⌊q⌋ + 1

/-- `round(x, 2)`. -/
def round2 (q : ℚ) : ℚ :=
  (roundHalfEven (q * 100) : ℚ) / 100

/-! ### Mark-to-market (close-only variant, lines 193-210) -/

/-- A market snapshot provider already specialised to one minute label:
`symbol ↦ close` or a miss. -/
abbrev MinuteMarket := String → Option ℚ

/-- The contribution of one inventory entry to `m_close` for one minute.
Mirrors the body of the `for inst, data in inventory.items()` loop: the
entry counts only when `data['qty'] > 0` and the looked-up close value is
truthy (`if close_val:`), so both a miss and a `0.0` close contribute 0. -/
def contribClose (market : MinuteMarket) (e : String × Pos) : ℚ :=
  if 0 < e.2.qty then
    match market e.1 with
    | some close_val =>
        if close_val = 0 then 0
        else (close_val - e.2.avg_price) * (e.2.qty : ℚ)
              * (if e.2.side = Side.LONG then 1 else -1)
    | none => 0
  else 0

/-- `m_close` accumulated over the inventory. -/
def markClose (inv : Inventory) (market : MinuteMarket) : ℚ :=
  inv.foldl (fun acc e => acc + contribClose market e) 0

/-- `has_active_inventory`: some entry with `qty > 0`. -/
def hasActive (inv : Inventory) : Bool :=
  inv.any (fun e => decide (0 < e.2.qty))

/-! ### The minute-by-minute replay loop (lines 164-214) -/

/-- The full market snapshot provider: `(symbol, minute label) ↦ close`. -/
abbrev MarketFn := String → String → Option ℚ

/-- Session close `15:30:00` in minutes of the day. -/
def marketCloseMin : Nat := 15 * 60 + 30

/-- Applies every trade of the bucket `[current, current+1min)` in ledger
order to the inventory and realized-PnL accumulator. -/
def bucketStep (trades : List Trade) (current : Nat) (inv : Inventory) (realized : ℚ) :
    Inventory × ℚ :=
  (trades.filter (fun tr =>
      decide (current * 60 ≤ tr.tsec) && decide (tr.tsec < (current + 1) * 60))).foldl
    (fun s tr => applyTrade s.1 s.2 tr) (inv, realized)

/-- The PnL point appended for minute `current`:
`{"pnl": round(realized + m_close, 2), "time": strftime('%I:%M %p').lstrip('0')}`. -/
structure MinutePnLPoint where
  time : String
  pnl : ℚ
deriving DecidableEq, Repr

/-- Builds minute `current`'s emitted point from the post-bucket state. -/
def minutePoint (market : MarketFn) (tDate : String) (inv : Inventory) (realized : ℚ)
    (current : Nat) : MinutePnLPoint :=
  ⟨timeLabelOut current,
   round2 (realized + markClose inv (fun inst => market inst (timeLabelDB tDate current)))⟩

/-- Earliest trade timestamp (seconds since midnight); the source takes
`df_all['dt_obj'].min()` of a non-empty frame. -/
def minTsec : List Trade → Nat
  | [] => 0
  | t :: ts => ts.foldl (fun a tr => Nat.min a tr.tsec) t.tsec

/-- Latest trade timestamp, `df_all['dt_obj'].max()`. -/
def maxTsec : List Trade → Nat
  | [] => 0
  | t :: ts => ts.foldl (fun a tr => Nat.max a tr.tsec) t.tsec

/-- The early-exit test `not has_active_inventory and current_time > df_all['dt_obj'].max()`. -/
def breakQ (trades : List Trade) (inv : Inventory) (current : Nat) : Bool :=
  !hasActive inv && decide (maxTsec trades < current * 60)

/-- The `while current_time <= market_close` loop.  The extra fuel
argument makes the recursion structural; the caller passes exactly
`marketCloseMin + 1 - current`, so fuel runs out precisely when the while
guard fails and the two formulations coincide. -/
def replayLoop (trades : List Trade) (market : MarketFn) (tDate : String) :
    Nat → Inventory → ℚ → Nat → List MinutePnLPoint
  | 0, _, _, _ => []
  | fuel + 1, inv, realized, current =>
      if current ≤ marketCloseMin then
        let stepped := bucketStep trades current inv realized
        let pt := minutePoint market tDate stepped.1 stepped.2 current
        if breakQ trades stepped.1 current then [pt]
        else replayLoop trades market tDate fuel stepped.1 stepped.2 (current + 1) |>.cons pt
      else []

/-- Terminal status of one (strategy, date) unit of the close-only engine. -/
inductive PnlOutcome where
  | invalid_time : PnlOutcome
  | ok : List MinutePnLPoint → PnlOutcome
deriving DecidableEq, Repr

/-- The external status string written to `pnl_1min_status`. -/
def statusString : PnlOutcome → String
  | PnlOutcome.invalid_time => "skipped_invalid_time"
  | PnlOutcome.ok _ => "completed"

/-- The point sequence persisted for the unit (nothing on failure: the
source `continue`s before any element of `pnl_series` is produced). -/
def pointsOf : PnlOutcome → List MinutePnLPoint
  | PnlOutcome.invalid_time => []
  | PnlOutcome.ok ps => ps

/-- One (strategy, date) unit of `calculate_intraday_pnl_1min_closing`:
the pre-flight session-close validation (lines 153-160) followed by the
minute replay (lines 164-214), for an already-sorted non-empty ledger. -/
def calculate_intraday_pnl_1min_closing (trades : List Trade) (market : MarketFn)
    (tDate : String) : PnlOutcome :=
  let current := minTsec trades / 60
  if marketCloseMin < current then PnlOutcome.invalid_time
  else PnlOutcome.ok
    (replayLoop trades market tDate (marketCloseMin + 1 - current) [] 0 current)

/-! ### Drawdown duration (`scripts/7_expectancy_calc.py`, lines 103-117, 161)

The summarizer works on the `cumulative_pnl` column of the per-day frame
(a list of rationals indexed by day position after `reset_index`). -/

/-- Helper for `cummax`: running maxima continuing from `cur`. -/
def cummaxFrom (cur : ℚ) : List ℚ → List ℚ
  | [] => []
  | x :: xs => max cur x :: cummaxFrom (max cur x) xs

/-- `peaks = cum_series.cummax()`. -/
def cummax : List ℚ → List ℚ
  | [] => []
  | x :: xs => x :: cummaxFrom x xs

/-- `.max()` of a pandas series (callers only use it on non-empty data). -/
def listMax : List ℚ → ℚ
  | [] => 0
  | x :: xs => xs.foldl max x

/-- `.idxmax()`: position of the first occurrence of the maximum. -/
def idxmaxFirst (l : List ℚ) : Nat :=
  l.findIdx (fun x => decide (x = listMax l))

/-- `drawdowns = peaks - cum_series`. -/
def ddList (cum : List ℚ) : List ℚ :=
  List.zipWith (fun a b => a - b) (cummax cum) cum

/-- `max_dd = round(float(drawdowns.max()), 2)`. -/
def max_dd (cum : List ℚ) : ℚ :=
  round2 (listMax (ddList cum))

/-- `recovery = post_trough[post_trough >= peak_val]; recovery.index[0]`:
the first day-index at or after the trough whose cumulative PnL is at
least `peakVal`, if any. -/
def recoveryIdxFrom (cum : List ℚ) (trough : Nat) (peakVal : ℚ) : Option Nat :=
  match (cum.drop trough).findIdx? (fun x => decide (peakVal ≤ x)) with
  | some j => some (trough + j)
  | none => none

/-- `peak_idx = cum_series.iloc[:trough_idx][cum_series == peak_val].index[-1]`:
the last day-index strictly before the trough whose cumulative PnL equals
`peakVal`. -/
def lastPeakIdxBefore (cum : List ℚ) (trough : Nat) (peakVal : ℚ) : Nat :=
  trough - 1 - (cum.take trough).reverse.findIdx (fun x => decide (x = peakVal))

/-- `trough_idx = drawdowns.idxmax()`. -/
def trough_idx (cum : List ℚ) : Nat :=
  idxmaxFirst (ddList cum)

/-- `peak_val = peaks.iloc[trough_idx]`. -/
def peak_val (cum : List ℚ) : ℚ :=
  (cummax cum).getD (trough_idx cum) 0

/-- `peak_idx` as computed on line 116. -/
def peak_idx (cum : List ℚ) : Nat :=
  lastPeakIdxBefore cum (trough_idx cum) (peak_val cum)

/-- The `duration` local of `run_expectancy_calc` (lines 110-117). -/
def dd_duration (cum : List ℚ) : Int :=
  if 0 < max_dd cum then
    match recoveryIdxFrom cum (trough_idx cum) (peak_val cum) with
    | some r => (r : Int) - (peak_idx cum : Int)
    | none => ((cum.length - 1 : Nat) : Int) - (peak_idx cum : Int)
  else 0

/-- The stored scorecard field `max_dd_duration_days = int(max(0, duration))`. -/
def max_dd_duration_days (cum : List ℚ) : Int :=
  max 0 (dd_duration cum)

/-! ### Spec-side renderings, used only to compare code behaviour with
the specification's words -/

/-- 12-hour clock with seconds and no leading zero on single-digit hours,
exactly as §4.1 of the spec describes the lookup key rendering. -/
def specClock12s (m : Nat) : String :=
  toString (hour12 (m / 60)) ++ ":" ++ pad2 (m % 60) ++ ":00 " ++ meridiem (m / 60)

/-- 12-hour clock without seconds and with no leading zero on
single-digit hours. -/
def specClock12 (m : Nat) : String :=
  toString (hour12 (m / 60)) ++ ":" ++ pad2 (m % 60) ++ " " ++ meridiem (m / 60)

/-- Drawdown duration as the (amended) specification words it: running
peaks and drawdowns written index-wise over prefixes of the series, then
the day-count from the peak preceding the maximum-drawdown trough to the
first recovery day, or to the last day when no recovery occurs. -/
def specRunningPeak (cum : List ℚ) (i : Nat) : ℚ :=
  listMax (cum.take (i + 1))

/-- Index-wise drawdown `peak_i - C_i` as the spec describes it. -/
def specDrawdownAt (cum : List ℚ) (i : Nat) : ℚ :=
  specRunningPeak cum i - cum.getD i 0

/-- The drawdown series, built index-wise from the spec's description. -/
def specDDList (cum : List ℚ) : List ℚ :=
  (List.range cum.length).map (specDrawdownAt cum)

/-- The maximum-drawdown trough as the spec words it: the first day-index
attaining the maximal index-wise drawdown. -/
def spec_trough_idx (cum : List ℚ) : Nat :=
  idxmaxFirst (specDDList cum)

/-- "The peak that preceded the maximum-drawdown trough": the running
peak of cumulative PnL at the trough day. -/
def spec_peak_val (cum : List ℚ) : ℚ :=
  specRunningPeak cum (spec_trough_idx cum)

/-- The day-index of that peak: the last day before the trough whose
cumulative PnL equals the peak value. -/
def spec_peak_idx (cum : List ℚ) : Nat :=
  lastPeakIdxBefore cum (spec_trough_idx cum) (spec_peak_val cum)

/-- Drawdown duration following the amended specification sentence: the
day-count from the peak to the first recovery day, or to the last day
when no recovery occurs. -/
def specDrawdownDuration (cum : List ℚ) : Int :=
  if 0 < round2 (listMax (specDDList cum)) then
    match recoveryIdxFrom cum (spec_trough_idx cum) (spec_peak_val cum) with
    | some r => (r : Int) - (spec_peak_idx cum : Int)
    | none => ((cum.length - 1 : Nat) : Int) - (spec_peak_idx cum : Int)
  else 0

/-! ### The end-to-end scenario of §8: BUY 50@100 (09:20), BUY 50@110
(09:21), SELL 120@108 (09:25), one instrument, close 107 at 09:25 -/

/-- The three scenario trades (timestamps in seconds since midnight:
09:20:00 = 33600, 09:21:00 = 33660, 09:25:00 = 33900). -/
def demoTrades : List Trade :=
  [⟨"OPT", TType.B, 100, 50, 33600⟩, ⟨"OPT", TType.B, 110, 50, 33660⟩,
   ⟨"OPT", TType.S, 108, 120, 33900⟩]

/-- A market snapshot provider with a single cached bar: close 107 for
the instrument at the 09:25 minute of the trading day. -/
def demoMarket : MarketFn := fun inst ts =>
  if inst = "OPT" ∧ ts = "2024-01-02 9:25:00 AM" then some 107 else none

/-! ## Helper lemmas -/

theorem lstrip0_cons0 (c : Char) (hc : ¬ c = '0') (l : List Char) :
    lstrip0 (String.mk ('0' :: c :: l)) = String.mk (c :: l) := by
  refine String.ext ?_
  show ('0' :: c :: l).dropWhile (fun c => c = '0') = c :: l
  simp [List.dropWhile_cons, hc]

theorem lstrip0_consNZ (c : Char) (hc : ¬ c = '0') (l : List Char) :
    lstrip0 (String.mk (c :: l)) = String.mk (c :: l) := by
  refine String.ext ?_
  show (c :: l).dropWhile (fun c => c = '0') = c :: l
  simp [List.dropWhile_cons, hc]

theorem lstrip0_pad2 (d : Nat) (h1 : 1 ≤ d) (h2 : d ≤ 12) (rest : String) :
    lstrip0 (pad2 d ++ rest) = toString d ++ rest := by
  interval_cases d
  · exact lstrip0_cons0 '1' (by decide) rest.data
  · exact lstrip0_cons0 '2' (by decide) rest.data
  · exact lstrip0_cons0 '3' (by decide) rest.data
  · exact lstrip0_cons0 '4' (by decide) rest.data
  · exact lstrip0_cons0 '5' (by decide) rest.data
  · exact lstrip0_cons0 '6' (by decide) rest.data
  · exact lstrip0_cons0 '7' (by decide) rest.data
  · exact lstrip0_cons0 '8' (by decide) rest.data
  · exact lstrip0_cons0 '9' (by decide) rest.data
  · exact lstrip0_consNZ '1' (by decide) ('0' :: rest.data)
  · exact lstrip0_consNZ '1' (by decide) ('1' :: rest.data)
  · exact lstrip0_consNZ '1' (by decide) ('2' :: rest.data)

theorem hour12_ge_one (h : Nat) : 1 ≤ hour12 h := by
  unfold hour12; split <;> omega

theorem hour12_le_twelve (h : Nat) : hour12 h ≤ 12 := by
  unfold hour12
  split
  · omega
  · exact Nat.le_of_lt_succ (Nat.lt_of_lt_of_le (Nat.mod_lt h (by omega)) (by omega))

theorem lstrip0_clockWithSeconds (m : Nat) :
    lstrip0 (clockWithSeconds m) = specClock12s m := by
  unfold clockWithSeconds specClock12s
  simp only [String.append_assoc]
  exact lstrip0_pad2 _ (hour12_ge_one _) (hour12_le_twelve _) _

theorem lstrip0_clockNoSeconds (m : Nat) :
    lstrip0 (clockNoSeconds m) = specClock12 m := by
  unfold clockNoSeconds specClock12
  simp only [String.append_assoc]
  exact lstrip0_pad2 _ (hour12_ge_one _) (hour12_le_twelve _) _

theorem find?_map_rep (k : String) (p : Pos) (inv : Inventory)
    (h : inv.any (fun e => decide (e.1 = k)) = true) :
    (inv.map (fun e => if e.1 = k then (k, p) else e)).find? (fun e => decide (e.1 = k))
      = some (k, p) := by
  induction inv with
  | nil => simp at h
  | cons a t ih =>
      by_cases ha : a.1 = k
      · simp [List.find?, ha]
      · have ht : t.any (fun e => decide (e.1 = k)) = true := by
          simp only [List.any_cons] at h
          rcases Bool.or_eq_true_iff.mp h with h1 | h1
          · exact absurd (of_decide_eq_true h1) ha
          · exact h1
        rw [List.map_cons, if_neg ha, List.find?_cons_of_neg _ (by simp [ha])]
        exact ih ht

theorem find?_append_key (k : String) (p : Pos) (inv : Inventory)
    (h : inv.any (fun e => decide (e.1 = k)) = false) :
    (inv ++ [(k, p)]).find? (fun e => decide (e.1 = k)) = some (k, p) := by
  induction inv with
  | nil => simp [List.find?]
  | cons a t ih =>
      simp only [List.any_cons, Bool.or_eq_false_iff, decide_eq_false_iff_not] at h
      simp [List.find?, h.1, ih (by simpa using h.2)]

theorem lookupInv_setInv_self (inv : Inventory) (k : String) (p : Pos) :
    lookupInv (setInv inv k p) k = some p := by
  unfold lookupInv setInv
  by_cases h : inv.any (fun e => decide (e.1 = k)) = true
  · rw [if_pos h, find?_map_rep k p inv h]
    rfl
  · simp only [Bool.not_eq_true] at h
    rw [if_neg (by simp [h]), find?_append_key k p inv h]
    rfl

theorem mem_setInv {e : String × Pos} {inv : Inventory} {k : String} {p : Pos}
    (h : e ∈ setInv inv k p) : e = (k, p) ∨ e ∈ inv := by
  unfold setInv at h
  split at h
  · obtain ⟨a, ha, hae⟩ := List.mem_map.mp h
    by_cases h2 : a.1 = k
    · rw [if_pos h2] at hae
      exact Or.inl hae.symm
    · rw [if_neg h2] at hae
      exact Or.inr (hae ▸ ha)
  · rcases List.mem_append.mp h with h1 | h1
    · exact Or.inr h1
    · exact Or.inl (List.mem_singleton.mp h1)

theorem lookupInv_eq_some_mem {inv : Inventory} {k : String} {p : Pos}
    (h : lookupInv inv k = some p) : (k, p) ∈ inv := by
  unfold lookupInv at h
  obtain ⟨a, ha, hap⟩ := Option.map_eq_some'.mp h
  have hmem := List.mem_of_find?_eq_some ha
  have hk := List.find?_some ha
  simp only [decide_eq_true_eq] at hk
  have hkp : (k, p) = a := by rw [← hk, ← hap]
  exact hkp ▸ hmem

theorem foldl_add_eq_sum {α : Type} (f : α → ℚ) (l : List α) (c : ℚ) :
    l.foldl (fun acc e => acc + f e) c = c + (l.map f).sum := by
  induction l generalizing c with
  | nil => simp
  | cons x t ih =>
      simp only [List.foldl_cons, List.map_cons, List.sum_cons, ih]
      ring

theorem markClose_eq_sum (inv : Inventory) (market : MinuteMarket) :
    markClose inv market = (inv.map (contribClose market)).sum := by
  unfold markClose
  simpa using foldl_add_eq_sum (contribClose market) inv 0

theorem replayLoop_cons (trades : List Trade) (market : MarketFn) (tDate : String)
    (fuel : Nat) (inv : Inventory) (realized : ℚ) (current : Nat)
    (hc : current ≤ marketCloseMin)
    (hb : breakQ trades (bucketStep trades current inv realized).1 current = false) :
    replayLoop trades market tDate (fuel + 1) inv realized current
      = minutePoint market tDate (bucketStep trades current inv realized).1
          (bucketStep trades current inv realized).2 current
        :: replayLoop trades market tDate fuel (bucketStep trades current inv realized).1
            (bucketStep trades current inv realized).2 (current + 1) := by
  simp [replayLoop, hc, hb]

theorem replayLoop_head (trades : List Trade) (market : MarketFn) (tDate : String)
    (fuel : Nat) (inv : Inventory) (realized : ℚ) (current : Nat)
    (hc : current ≤ marketCloseMin) :
    (replayLoop trades market tDate (fuel + 1) inv realized current).head? =
      some (minutePoint market tDate (bucketStep trades current inv realized).1
              (bucketStep trades current inv realized).2 current) := by
  simp only [replayLoop, hc, if_true]
  split <;> simp

theorem foldl_max_eq_or_mem (c : ℚ) (l : List ℚ) :
    l.foldl max c = c ∨ l.foldl max c ∈ l := by
  induction l generalizing c with
  | nil => exact Or.inl rfl
  | cons x t ih =>
      rw [List.foldl_cons]
      rcases ih (max c x) with h | h
      · rw [h]
        rcases max_choice c x with h2 | h2
        · exact Or.inl h2
        · rw [h2]
          exact Or.inr (List.mem_cons_self x t)
      · exact Or.inr (List.mem_cons_of_mem x h)

theorem listMax_mem {l : List ℚ} (h : l ≠ []) : listMax l ∈ l := by
  match l with
  | x :: t =>
      show t.foldl max x ∈ x :: t
      rcases foldl_max_eq_or_mem x t with h1 | h1
      · rw [h1]; exact List.mem_cons_self x t
      · exact List.mem_cons_of_mem x h1

theorem cummaxFrom_length (c : ℚ) (xs : List ℚ) :
    (cummaxFrom c xs).length = xs.length := by
  induction xs generalizing c with
  | nil => rfl
  | cons x t ih => simp [cummaxFrom, ih]

theorem cummax_length (l : List ℚ) : (cummax l).length = l.length := by
  match l with
  | [] => rfl
  | x :: t => simp [cummax, cummaxFrom_length]

theorem cummaxFrom_getElem? (c : ℚ) (xs : List ℚ) (i : Nat) (hi : i < xs.length) :
    (cummaxFrom c xs)[i]? = some ((xs.take (i + 1)).foldl max c) := by
  induction xs generalizing c i with
  | nil => simp at hi
  | cons x t ih =>
      match i with
      | 0 => simp [cummaxFrom]
      | i + 1 =>
          have hi2 : i < t.length := by simpa using hi
          rw [show cummaxFrom c (x :: t) = max c x :: cummaxFrom (max c x) t from rfl,
            List.getElem?_cons_succ, ih (max c x) i hi2]
          rfl

theorem cummax_getElem? (l : List ℚ) (i : Nat) (hi : i < l.length) :
    (cummax l)[i]? = some (listMax (l.take (i + 1))) := by
  match l with
  | x :: t =>
      match i with
      | 0 => simp [cummax, listMax]
      | i + 1 =>
          have hi2 : i < t.length := by simpa using hi
          rw [show cummax (x :: t) = x :: cummaxFrom x t from rfl,
            List.getElem?_cons_succ, cummaxFrom_getElem? x t i hi2]
          rfl

theorem ddList_eq_specDDList (cum : List ℚ) : ddList cum = specDDList cum := by
  apply List.ext_getElem?
  intro n
  by_cases hn : n < cum.length
  · rw [ddList, List.getElem?_zipWith, cummax_getElem? cum n hn, specDDList,
      List.getElem?_map, List.getElem?_range hn]
    rw [List.getElem?_eq_getElem hn]
    simp [specDrawdownAt, specRunningPeak, List.getD_eq_getElem?_getD,
      List.getElem?_eq_getElem hn]
  · push_neg at hn
    rw [ddList, List.getElem?_eq_none, List.getElem?_eq_none]
    · simpa [specDDList]
    · simpa [cummax_length] using hn

theorem round2_pos {q : ℚ} (h : 0 < round2 q) : 0 < q := by
  by_contra hq
  push_neg at hq
  have hx0 : q * 100 ≤ 0 := mul_nonpos_of_nonpos_of_nonneg hq (by norm_num)
  have hz : roundHalfEven (q * 100) ≤ 0 := by
    unfold roundHalfEven
    have hf : ⌊q * 100⌋ ≤ 0 := Int.floor_nonpos hx0
    split_ifs with h1 h2 h3
    · exact hf
    · rcases lt_or_eq_of_le hf with hlt | heq
      · omega
      · exfalso
        rw [heq] at h2
        push_cast at h2
        linarith
    · exact hf
    · have hhalf : q * 100 - (⌊q * 100⌋ : ℚ) = 1 / 2 :=
        le_antisymm (not_lt.mp h2) (not_lt.mp h1)
      rcases lt_or_eq_of_le hf with hlt | heq
      · omega
      · exfalso
        rw [heq] at hhalf
        push_cast at hhalf
        linarith
  unfold round2 at h
  rw [lt_div_iff₀ (by norm_num : (0:ℚ) < 100), zero_mul] at h
  exact absurd (Int.cast_pos.mp h) (not_lt.mpr hz)

theorem ddList_length (cum : List ℚ) : (ddList cum).length = cum.length := by
  simp [ddList, cummax_length]

theorem ddList_getElem?_zero (x : ℚ) (t : List ℚ) : (ddList (x :: t))[0]? = some 0 := by
  rw [show ddList (x :: t)
      = (x - x) :: List.zipWith (fun a b => a - b) (cummaxFrom x t) t from rfl]
  rw [List.getElem?_cons_zero, sub_self]

theorem trough_idx_eq_spec (cum : List ℚ) : trough_idx cum = spec_trough_idx cum := by
  unfold trough_idx spec_trough_idx
  rw [ddList_eq_specDDList]

theorem specDDList_length (cum : List ℚ) : (specDDList cum).length = cum.length := by
  simp [specDDList]

theorem spec_trough_idx_lt {cum : List ℚ} (h : cum ≠ []) :
    spec_trough_idx cum < cum.length := by
  have hne : specDDList cum ≠ [] := by
    intro h0
    have := specDDList_length cum
    rw [h0] at this
    exact h (List.length_eq_zero.mp this.symm)
  have hmem := listMax_mem hne
  have hex : ∃ y ∈ specDDList cum, decide (y = listMax (specDDList cum)) = true :=
    ⟨listMax (specDDList cum), hmem, decide_eq_true rfl⟩
  have hlt := List.findIdx_lt_length_of_exists hex
  unfold spec_trough_idx idxmaxFirst
  rwa [specDDList_length cum] at hlt

theorem peak_val_eq_spec (cum : List ℚ) : peak_val cum = spec_peak_val cum := by
  unfold peak_val spec_peak_val
  rw [trough_idx_eq_spec]
  match cum with
  | [] => rfl
  | x :: t =>
      rw [List.getD_eq_getElem?_getD,
        cummax_getElem? (x :: t) _ (spec_trough_idx_lt (by simp))]
      rfl

theorem peak_idx_eq_spec (cum : List ℚ) : peak_idx cum = spec_peak_idx cum := by
  unfold peak_idx spec_peak_idx
  rw [trough_idx_eq_spec, peak_val_eq_spec]

theorem dd_duration_eq_spec (cum : List ℚ) :
    dd_duration cum = specDrawdownDuration cum := by
  unfold dd_duration specDrawdownDuration max_dd
  rw [ddList_eq_specDDList, trough_idx_eq_spec, peak_val_eq_spec, peak_idx_eq_spec]

theorem trough_idx_getElem {cum : List ℚ} (htr : trough_idx cum < (ddList cum).length) :
    (ddList cum)[trough_idx cum]? = some (listMax (ddList cum)) := by
  unfold trough_idx idxmaxFirst at htr ⊢
  rw [List.getElem?_eq_getElem htr]
  exact congrArg some (of_decide_eq_true (List.findIdx_getElem (w := htr)))

theorem dd_duration_pos {cum : List ℚ} (h : 0 < max_dd cum) : 0 < dd_duration cum := by
  match cum with
  | [] => norm_num [max_dd, ddList, cummax, listMax, round2, roundHalfEven] at h
  | x :: t =>
      have hmax : 0 < listMax (ddList (x :: t)) := round2_pos h
      have hne : ddList (x :: t) ≠ [] := by
        intro h0
        rw [h0] at hmax
        norm_num [listMax] at hmax
      have hex : ∃ y ∈ ddList (x :: t), decide (y = listMax (ddList (x :: t))) = true :=
        ⟨listMax (ddList (x :: t)), listMax_mem hne, decide_eq_true rfl⟩
      have htr : trough_idx (x :: t) < (ddList (x :: t)).length :=
        List.findIdx_lt_length_of_exists hex
      have htrc : trough_idx (x :: t) < (x :: t).length := by
        rwa [ddList_length] at htr
      have htr0 : trough_idx (x :: t) ≠ 0 := by
        intro h0
        have hq := trough_idx_getElem htr
        rw [h0, ddList_getElem?_zero] at hq
        have h00 := Option.some.inj hq
        rw [← h00] at hmax
        exact lt_irrefl 0 hmax
      have hpk : peak_idx (x :: t) ≤ trough_idx (x :: t) - 1 :=
        Nat.sub_le (trough_idx (x :: t) - 1) _
      unfold dd_duration
      rw [if_pos h]
      rcases hrec : recoveryIdxFrom (x :: t) (trough_idx (x :: t)) (peak_val (x :: t))
        with _ | r
      · simp only [hrec]
        simp only [List.length_cons] at htrc ⊢
        omega
      · have hr : trough_idx (x :: t) ≤ r := by
          unfold recoveryIdxFrom at hrec
          rcases hfi : ((x :: t).drop (trough_idx (x :: t))).findIdx?
              (fun v => decide (peak_val (x :: t) ≤ v)) with _ | j
          · rw [hfi] at hrec
            simp at hrec
          · rw [hfi] at hrec
            simp only [Option.some.injEq] at hrec
            omega
        simp only [hrec]
        omega


theorem ttype_S_ne_B : TType.S ≠ TType.B := by decide

theorem ttype_B_ne_S : TType.B ≠ TType.S := by decide

theorem side_L_ne_S : Side.LONG ≠ Side.SHORT := by decide

theorem side_S_ne_L : Side.SHORT ≠ Side.LONG := by decide

/-! ## Claim theorems -/

/-- C2: whenever an opposing trade's (coerced) quantity strictly exceeds
the open position's quantity, applying the trade adds
`(trade_price - avg_price) * old_qty * sign` to realized PnL (sign `+1`
for LONG, `-1` for SHORT) and flips the position to the opposite side
with quantity `trade_qty - old_qty` and average price equal to the trade
price. -/
theorem C2_flip_realizes_and_flips (inv : Inventory) (realized : ℚ) (tr : Trade) (p : Pos)
    (hlook : lookupInv inv tr.inst = some p)
    (hq : ¬ p.qty = 0)
    (hopp : (p.side = Side.LONG ∧ tr.t_type = TType.S)
          ∨ (p.side = Side.SHORT ∧ tr.t_type = TType.B))
    (hgt : p.qty < |tr.quantity|) :
    (applyTrade inv realized tr).2
        = realized + (tr.price - p.avg_price) * (p.qty : ℚ)
            * (if p.side = Side.LONG then 1 else -1)
    ∧ lookupInv (applyTrade inv realized tr).1 tr.inst
        = some ⟨|tr.quantity| - p.qty, tr.price, oppSide p.side⟩ := by
  have hnsame : ¬ ((p.side = Side.LONG ∧ tr.t_type = TType.B)
      ∨ (p.side = Side.SHORT ∧ tr.t_type = TType.S)) := by
    intro hcon
    rcases hopp with ⟨h1, h2⟩ | ⟨h1, h2⟩ <;> rcases hcon with ⟨g1, g2⟩ | ⟨g1, g2⟩
    · exact absurd (g2.symm.trans h2) ttype_B_ne_S
    · exact absurd (h1.symm.trans g1) side_L_ne_S
    · exact absurd (h1.symm.trans g1) side_S_ne_L
    · exact absurd (g2.symm.trans h2) ttype_S_ne_B
  simp only [applyTrade, hlook, if_neg hq, if_neg hnsame, if_pos hgt]
  exact ⟨trivial, lookupInv_setInv_self inv tr.inst _⟩

/-- C2 witness: LONG 100@105, then SELL 120@108 realizes 300 and leaves
SHORT 20@108. -/
theorem C2_witness :
    (applyTrade [("X", ⟨100, 105, Side.LONG⟩)] 0 ⟨"X", TType.S, 108, 120, 0⟩).2 = 300
    ∧ lookupInv (applyTrade [("X", ⟨100, 105, Side.LONG⟩)] 0
        ⟨"X", TType.S, 108, 120, 0⟩).1 "X" = some ⟨20, 108, Side.SHORT⟩ := by
  have h := C2_flip_realizes_and_flips [("X", ⟨100, 105, Side.LONG⟩)] 0
      ⟨"X", TType.S, 108, 120, 0⟩ ⟨100, 105, Side.LONG⟩
      (by simp [lookupInv, List.find?]) (by norm_num) (Or.inl ⟨rfl, rfl⟩) (by norm_num)
  constructor
  · rw [h.1]; norm_num
  · rw [h.2]
    norm_num [oppSide]

/-- C3: a same-direction trade (BUY into LONG or SELL into SHORT) on an
open position keeps the side, adds the quantities, resets the average to
the quantity-weighted mean, and leaves realized PnL unchanged. -/
theorem C3_same_direction_merge (inv : Inventory) (realized : ℚ) (tr : Trade) (p : Pos)
    (hlook : lookupInv inv tr.inst = some p)
    (hq : ¬ p.qty = 0)
    (hsame : (p.side = Side.LONG ∧ tr.t_type = TType.B)
           ∨ (p.side = Side.SHORT ∧ tr.t_type = TType.S)) :
    (applyTrade inv realized tr).2 = realized
    ∧ lookupInv (applyTrade inv realized tr).1 tr.inst
        = some ⟨p.qty + |tr.quantity|,
            (p.avg_price * (p.qty : ℚ) + tr.price * ((|tr.quantity| : ℤ) : ℚ))
              / (((p.qty + |tr.quantity| : ℤ)) : ℚ),
            p.side⟩ := by
  simp only [applyTrade, hlook, if_neg hq, if_pos hsame]
  exact ⟨trivial, lookupInv_setInv_self inv tr.inst _⟩

/-- C3 witness: SHORT 50@100 then SELL 50@98 gives SHORT 100@99 with no
realized PnL. -/
theorem C3_witness :
    (applyTrade (applyTrade [] 0 ⟨"X", TType.S, 100, 50, 0⟩).1 0
        ⟨"X", TType.S, 98, 50, 0⟩).2 = 0
    ∧ lookupInv (applyTrade (applyTrade [] 0 ⟨"X", TType.S, 100, 50, 0⟩).1 0
        ⟨"X", TType.S, 98, 50, 0⟩).1 "X" = some ⟨100, 99, Side.SHORT⟩ := by
  have hinv : (applyTrade [] 0 ⟨"X", TType.S, 100, 50, 0⟩).1
      = [("X", ⟨50, 100, Side.SHORT⟩)] := by
    norm_num [applyTrade, lookupInv, setInv, List.find?, ttype_S_ne_B]
  rw [hinv]
  have h := C3_same_direction_merge [("X", ⟨50, 100, Side.SHORT⟩)] 0
      ⟨"X", TType.S, 98, 50, 0⟩ ⟨50, 100, Side.SHORT⟩
      (by simp [lookupInv, List.find?]) (by norm_num) (Or.inr ⟨rfl, rfl⟩)
  refine ⟨h.1, ?_⟩
  rw [h.2]
  norm_num

/-- C4: an opposing trade with (coerced) quantity at most the position's
quantity realizes `(trade_price - avg_price) * trade_qty * sign`, lowers
the quantity by the trade quantity, and leaves side and average price
unchanged. -/
theorem C4_reduce_position (inv : Inventory) (realized : ℚ) (tr : Trade) (p : Pos)
    (hlook : lookupInv inv tr.inst = some p)
    (hq : ¬ p.qty = 0)
    (hopp : (p.side = Side.LONG ∧ tr.t_type = TType.S)
          ∨ (p.side = Side.SHORT ∧ tr.t_type = TType.B))
    (hle : |tr.quantity| ≤ p.qty) :
    (applyTrade inv realized tr).2
        = realized + (tr.price - p.avg_price) * ((|tr.quantity| : ℤ) : ℚ)
            * (if p.side = Side.LONG then 1 else -1)
    ∧ lookupInv (applyTrade inv realized tr).1 tr.inst
        = some ⟨p.qty - |tr.quantity|, p.avg_price, p.side⟩ := by
  have hnsame : ¬ ((p.side = Side.LONG ∧ tr.t_type = TType.B)
      ∨ (p.side = Side.SHORT ∧ tr.t_type = TType.S)) := by
    intro hcon
    rcases hopp with ⟨h1, h2⟩ | ⟨h1, h2⟩ <;> rcases hcon with ⟨g1, g2⟩ | ⟨g1, g2⟩
    · exact absurd (g2.symm.trans h2) ttype_B_ne_S
    · exact absurd (h1.symm.trans g1) side_L_ne_S
    · exact absurd (h1.symm.trans g1) side_S_ne_L
    · exact absurd (g2.symm.trans h2) ttype_S_ne_B
  simp only [applyTrade, hlook, if_neg hq, if_neg hnsame, if_neg (not_lt.mpr hle)]
  exact ⟨trivial, lookupInv_setInv_self inv tr.inst _⟩

/-- C4 witness: LONG 100@105 then SELL 40@108 realizes 120 and leaves
LONG 60@105. -/
theorem C4_witness :
    (applyTrade [("X", ⟨100, 105, Side.LONG⟩)] 0 ⟨"X", TType.S, 108, 40, 0⟩).2 = 120
    ∧ lookupInv (applyTrade [("X", ⟨100, 105, Side.LONG⟩)] 0
        ⟨"X", TType.S, 108, 40, 0⟩).1 "X" = some ⟨60, 105, Side.LONG⟩ := by
  have h := C4_reduce_position [("X", ⟨100, 105, Side.LONG⟩)] 0
      ⟨"X", TType.S, 108, 40, 0⟩ ⟨100, 105, Side.LONG⟩
      (by simp [lookupInv, List.find?]) (by norm_num) (Or.inl ⟨rfl, rfl⟩) (by norm_num)
  constructor
  · rw [h.1]; norm_num
  · rw [h.2]
    norm_num

/-- C10: applying any trade (whose quantity the engine coerces through
`int(abs(..))`) to an inventory whose entries all have non-negative
quantities yields an inventory whose entries all have non-negative
quantities. -/
theorem C10_qty_nonneg (inv : Inventory) (realized : ℚ) (tr : Trade)
    (hinv : ∀ e ∈ inv, 0 ≤ e.2.qty) :
    ∀ e ∈ (applyTrade inv realized tr).1, 0 ≤ e.2.qty := by
  intro e he
  rcases hlook : lookupInv inv tr.inst with _ | p
  · simp only [applyTrade, hlook] at he
    rcases mem_setInv he with rfl | hmem
    · exact abs_nonneg tr.quantity
    · exact hinv e hmem
  · have hp : 0 ≤ p.qty := hinv (tr.inst, p) (lookupInv_eq_some_mem hlook)
    have habs : 0 ≤ |tr.quantity| := abs_nonneg tr.quantity
    simp only [applyTrade, hlook] at he
    split_ifs at he <;>
      rcases mem_setInv he with rfl | hmem <;>
        first
        | exact hinv e hmem
        | exact (by omega : (0:ℤ) ≤ |tr.quantity|)
        | exact (by omega : (0:ℤ) ≤ p.qty + |tr.quantity|)
        | exact (by omega : (0:ℤ) ≤ |tr.quantity| - p.qty)
        | exact (by omega : (0:ℤ) ≤ p.qty - |tr.quantity|)

/-- C10 witness: a flip that consumes a LONG 5 with a SELL 9 leaves the
(only) entry at quantity 4 ≥ 0. -/
theorem C10_witness :
    0 ≤ (("X", (⟨4, 11, Side.SHORT⟩ : Pos)) : String × Pos).2.qty := by
  have hl : (applyTrade [("X", ⟨5, 10, Side.LONG⟩)] 0 ⟨"X", TType.S, 11, 9, 0⟩).1
      = [("X", ⟨4, 11, Side.SHORT⟩)] := by
    norm_num [applyTrade, lookupInv, setInv, List.find?, oppSide,
      ttype_S_ne_B, side_L_ne_S]
  have h := C10_qty_nonneg [("X", ⟨5, 10, Side.LONG⟩)] 0 ⟨"X", TType.S, 11, 9, 0⟩
      (by intro e he; rcases List.mem_singleton.mp he with rfl; norm_num)
  exact h ("X", ⟨4, 11, Side.SHORT⟩) (by rw [hl]; exact List.mem_singleton.mpr rfl)

/-- C5: when the earliest trade's minute-truncated timestamp is strictly
later than the 15:30 session close, the close-only engine fails with the
`invalid_time` outcome, emits no PnL points, and its external status
string is `"skipped_invalid_time"`. -/
theorem C5_invalid_time_skip (trades : List Trade) (market : MarketFn) (tDate : String)
    (_hne : trades ≠ []) (hlate : marketCloseMin < minTsec trades / 60) :
    calculate_intraday_pnl_1min_closing trades market tDate = PnlOutcome.invalid_time
    ∧ pointsOf (calculate_intraday_pnl_1min_closing trades market tDate) = []
    ∧ statusString (calculate_intraday_pnl_1min_closing trades market tDate)
        = "skipped_invalid_time" := by
  have h1 : calculate_intraday_pnl_1min_closing trades market tDate
      = PnlOutcome.invalid_time := by
    unfold calculate_intraday_pnl_1min_closing
    rw [if_pos hlate]
  exact ⟨h1, by rw [h1]; rfl, by rw [h1]; rfl⟩

/-- C5 witness: a single trade at 15:31:00 (55860 seconds) fails the
pre-flight check. -/
theorem C5_witness :
    calculate_intraday_pnl_1min_closing [⟨"X", TType.B, 100, 1, 55860⟩]
        (fun _ _ => none) "2024-01-02" = PnlOutcome.invalid_time
    ∧ statusString (calculate_intraday_pnl_1min_closing [⟨"X", TType.B, 100, 1, 55860⟩]
        (fun _ _ => none) "2024-01-02") = "skipped_invalid_time" := by
  have h := C5_invalid_time_skip [⟨"X", TType.B, 100, 1, 55860⟩] (fun _ _ => none)
      "2024-01-02" (by simp) (by norm_num [minTsec, marketCloseMin])
  exact ⟨h.1, h.2.2⟩

/-- C7: for any minute cursor not later than session close, the replay
emits the minute's point no matter what the market provider answers (the
point is the head of the remaining output), the point is tagged with the
minute's time label, the minute's `m_close` is the sum of the per-entry
contributions, and any entry whose market lookup misses contributes 0 to
that sum. -/
theorem C7_missing_bar_minute_kept (trades : List Trade) (market : MarketFn)
    (tDate : String) (fuel : Nat) (inv : Inventory) (realized : ℚ) (current : Nat)
    (inst : String) (p : Pos)
    (hc : current ≤ marketCloseMin)
    (hmiss : market inst (timeLabelDB tDate current) = none) :
    (replayLoop trades market tDate (fuel + 1) inv realized current).head?
      = some (minutePoint market tDate (bucketStep trades current inv realized).1
          (bucketStep trades current inv realized).2 current)
    ∧ (minutePoint market tDate (bucketStep trades current inv realized).1
          (bucketStep trades current inv realized).2 current).time = timeLabelOut current
    ∧ markClose (bucketStep trades current inv realized).1
          (fun s => market s (timeLabelDB tDate current))
        = ((bucketStep trades current inv realized).1.map
            (contribClose (fun s => market s (timeLabelDB tDate current)))).sum
    ∧ contribClose (fun s => market s (timeLabelDB tDate current)) (inst, p) = 0 := by
  refine ⟨replayLoop_head trades market tDate fuel inv realized current hc, rfl,
    markClose_eq_sum _ _, ?_⟩
  simp [contribClose, hmiss]

/-- C7 witness: an all-miss provider at 10:00 with an open LONG 5@100
still yields the minute's point, and the entry contributes 0. -/
theorem C7_witness :
    (replayLoop [] (fun _ _ => none) "2024-01-02" 1 [("X", ⟨5, 100, Side.LONG⟩)] 0
        600).head?
      = some (minutePoint (fun _ _ => none) "2024-01-02"
          (bucketStep [] 600 [("X", ⟨5, 100, Side.LONG⟩)] 0).1
          (bucketStep [] 600 [("X", ⟨5, 100, Side.LONG⟩)] 0).2 600)
    ∧ contribClose (fun s => (fun _ _ => none : MarketFn) s
          (timeLabelDB "2024-01-02" 600)) ("X", ⟨5, 100, Side.LONG⟩) = 0 := by
  have h := C7_missing_bar_minute_kept [] (fun _ _ => none) "2024-01-02" 0
      [("X", ⟨5, 100, Side.LONG⟩)] 0 600 "X" ⟨5, 100, Side.LONG⟩
      (by norm_num [marketCloseMin]) rfl
  exact ⟨h.1, h.2.2.2⟩

/-- C9: a cached bar whose close price is exactly 0.0 is treated as a
miss: the entry's unrealized contribution is 0, identical to the
contribution under a provider that misses. -/
theorem C9_zero_close_as_miss (market : MinuteMarket) (inst : String) (p : Pos)
    (hz : market inst = some 0) :
    contribClose market (inst, p) = 0
    ∧ contribClose market (inst, p) = contribClose (fun _ => none) (inst, p) := by
  constructor
  · simp [contribClose, hz]
  · simp [contribClose, hz]

/-- C9 witness: LONG 5@100 against a provider returning close 0.0
contributes 0, although `(0 - 100) * 5 * 1` is not 0. -/
theorem C9_witness :
    contribClose (fun _ => some 0) ("X", ⟨5, 100, Side.LONG⟩) = 0
    ∧ ¬ ((0:ℚ) - 100) * 5 * 1 = 0 := by
  have h := C9_zero_close_as_miss (fun _ => some 0) "X" ⟨5, 100, Side.LONG⟩ rfl
  exact ⟨h.1, by norm_num⟩

/-- C8 counterexample: at the 09:16 cursor the market-lookup key is the
trading day plus `9:16:00 AM`, but the emitted point's time tag is just
`9:16 AM` — without the trading day and without seconds — so the two
labels are not rendered the same way, contrary to the claim. -/
theorem C8_counterexample :
    timeLabelDB "2024-01-02" 556 = "2024-01-02 9:16:00 AM"
    ∧ timeLabelOut 556 = "9:16 AM"
    ∧ ¬ timeLabelOut 556 = timeLabelDB "2024-01-02" 556 := by
  refine ⟨?_, ?_, ?_⟩ <;> decide

/-- C8 amended: for every cursor minute, the market-lookup key is the
trading day plus the 12-hour clock time with seconds and no leading zero
on single-digit hours, while the emitted point's tag is the bare 12-hour
clock time without seconds, also with no leading zero. -/
theorem C8_amended_labels (tDate : String) (m : Nat) :
    timeLabelDB tDate m = tDate ++ " " ++ specClock12s m
    ∧ timeLabelOut m = specClock12 m := by
  constructor
  · unfold timeLabelDB
    rw [lstrip0_clockWithSeconds]
  · exact lstrip0_clockNoSeconds m

/-- C6 counterexample: for the cumulative-PnL history `[10, 5]` the
maximum drawdown is 5 > 0 and no recovery ever occurs, yet the stored
`max_dd_duration_days` is 1 (the day-count from the peak to the last
day), not 0 as the claim states. -/
theorem C6_counterexample :
    max_dd_duration_days [10, 5] = 1
    ∧ 0 < max_dd [10, 5]
    ∧ recoveryIdxFrom [10, 5] (trough_idx [10, 5]) (peak_val [10, 5]) = none := by
  have hdd : ddList [(10:ℚ), 5] = [0, 5] := by
    norm_num [ddList, cummax, cummaxFrom, max_def]
  have hmax : listMax (ddList [(10:ℚ), 5]) = 5 := by
    rw [hdd]; norm_num [listMax, max_def]
  have hmdd : max_dd [10, 5] = 5 := by
    rw [max_dd, hmax]
    norm_num [round2, roundHalfEven]
  have htr : trough_idx [(10:ℚ), 5] = 1 := by
    rw [trough_idx, idxmaxFirst, hmax, hdd]
    norm_num [List.findIdx, List.findIdx.go]
  have hpv : peak_val [(10:ℚ), 5] = 10 := by
    rw [peak_val, htr]
    norm_num [cummax, cummaxFrom, max_def]
  have hrec : recoveryIdxFrom [(10:ℚ), 5] (trough_idx [10, 5]) (peak_val [10, 5])
      = none := by
    rw [htr, hpv]
    norm_num [recoveryIdxFrom, List.findIdx?]
  refine ⟨?_, by rw [hmdd]; norm_num, hrec⟩
  have hpi : peak_idx [(10:ℚ), 5] = 0 := by
    rw [peak_idx, htr, hpv]
    norm_num [lastPeakIdxBefore, List.findIdx, List.findIdx.go]
  rw [max_dd_duration_days, dd_duration, if_pos (by rw [hmdd]; norm_num), hrec]
  simp [hpi, max_def]

/-- C6 amended: for every cumulative-PnL history with `max_dd > 0`, the
stored `max_dd_duration_days` equals the spec-side drawdown duration: the
day-count from the peak preceding the maximum-drawdown trough to the
first day cumulative PnL returns to or exceeds that peak, and — when no
recovery occurs by the last day — the day-count from that peak to the
last day (not 0). -/
theorem C6_duration_amended (cum : List ℚ) (h : 0 < max_dd cum) :
    max_dd_duration_days cum = specDrawdownDuration cum := by
  unfold max_dd_duration_days
  rw [max_eq_right (le_of_lt (dd_duration_pos h)), dd_duration_eq_spec]

/-- C6 witness: the history `[10, 5, 12]` has `max_dd = 5 > 0`, and the
stored duration agrees with the spec-side duration. -/
theorem C6_witness :
    0 < max_dd [10, 5, 12]
    ∧ max_dd_duration_days [10, 5, 12] = specDrawdownDuration [10, 5, 12] := by
  have hdd : ddList [(10:ℚ), 5, 12] = [0, 5, 0] := by
    norm_num [ddList, cummax, cummaxFrom, max_def]
  have hmdd : 0 < max_dd [(10:ℚ), 5, 12] := by
    rw [max_dd, hdd]
    norm_num [listMax, max_def, round2, roundHalfEven]
  exact ⟨hmdd, C6_duration_amended [10, 5, 12] hmdd⟩


theorem replayLoop_step (trades : List Trade) (market : MarketFn) (tDate : String)
    (fuel : Nat) (inv : Inventory) (realized : ℚ) (current : Nat)
    (inv2 : Inventory) (r2 : ℚ)
    (hc : current ≤ marketCloseMin)
    (hbs : bucketStep trades current inv realized = (inv2, r2))
    (hbq : breakQ trades inv2 current = false) :
    replayLoop trades market tDate (fuel + 1) inv realized current
      = minutePoint market tDate inv2 r2 current
        :: replayLoop trades market tDate fuel inv2 r2 (current + 1) := by
  have h := replayLoop_cons trades market tDate fuel inv realized current hc
      (by rw [hbs]; exact hbq)
  rw [hbs] at h
  exact h

/-- C1: replaying the §8 scenario (BUY 50@100 at 09:20, BUY 50@110 at
09:21, SELL 120@108 at 09:25, market close 107 at 09:25) emits as its
sixth minute point — the 09:25 bucket — the point tagged `9:25 AM` with
pnl 320 = 300 realized on the flip plus 20 unrealized on the residual
SHORT 20@108 marked at 107. -/
theorem C1_end_to_end :
    (pointsOf (calculate_intraday_pnl_1min_closing demoTrades demoMarket
        "2024-01-02"))[5]? = some ⟨"9:25 AM", 320⟩ := by
  have hb560 : bucketStep demoTrades 560 [] 0 = ([("OPT", ⟨50, 100, Side.LONG⟩)], 0) := by
    norm_num [bucketStep, demoTrades, List.filter, applyTrade, lookupInv, setInv,
      List.find?]
  have hb561 : bucketStep demoTrades 561 [("OPT", ⟨50, 100, Side.LONG⟩)] 0
      = ([("OPT", ⟨100, 105, Side.LONG⟩)], 0) := by
    norm_num [bucketStep, demoTrades, List.filter, applyTrade, lookupInv, setInv,
      List.find?]
  have hb562 : bucketStep demoTrades 562 [("OPT", ⟨100, 105, Side.LONG⟩)] 0
      = ([("OPT", ⟨100, 105, Side.LONG⟩)], 0) := by
    norm_num [bucketStep, demoTrades, List.filter]
  have hb563 : bucketStep demoTrades 563 [("OPT", ⟨100, 105, Side.LONG⟩)] 0
      = ([("OPT", ⟨100, 105, Side.LONG⟩)], 0) := by
    norm_num [bucketStep, demoTrades, List.filter]
  have hb564 : bucketStep demoTrades 564 [("OPT", ⟨100, 105, Side.LONG⟩)] 0
      = ([("OPT", ⟨100, 105, Side.LONG⟩)], 0) := by
    norm_num [bucketStep, demoTrades, List.filter]
  have hb565 : bucketStep demoTrades 565 [("OPT", ⟨100, 105, Side.LONG⟩)] 0
      = ([("OPT", ⟨20, 108, Side.SHORT⟩)], 300) := by
    norm_num [bucketStep, demoTrades, List.filter, applyTrade, lookupInv, setInv,
      List.find?, oppSide, ttype_S_ne_B, side_L_ne_S]
  have hk1 : breakQ demoTrades [("OPT", (⟨50, 100, Side.LONG⟩ : Pos))] 560 = false := by
    simp [breakQ, hasActive]
  have hk2 : ∀ m : Nat, breakQ demoTrades [("OPT", (⟨100, 105, Side.LONG⟩ : Pos))] m
      = false := by
    intro m
    simp [breakQ, hasActive]
  have hk3 : breakQ demoTrades [("OPT", (⟨20, 108, Side.SHORT⟩ : Pos))] 565 = false := by
    simp [breakQ, hasActive]
  have hcalc : calculate_intraday_pnl_1min_closing demoTrades demoMarket "2024-01-02"
      = PnlOutcome.ok (replayLoop demoTrades demoMarket "2024-01-02" 371 [] 0 560) := by
    unfold calculate_intraday_pnl_1min_closing
    norm_num [minTsec, demoTrades, marketCloseMin]
  rw [hcalc]
  show (replayLoop demoTrades demoMarket "2024-01-02" 371 [] 0 560)[5]?
      = some ⟨"9:25 AM", 320⟩
  rw [replayLoop_step demoTrades demoMarket "2024-01-02" 370 [] 0 560 _ _
      (by norm_num [marketCloseMin]) hb560 hk1]
  rw [replayLoop_step demoTrades demoMarket "2024-01-02" 369 _ _ 561 _ _
      (by norm_num [marketCloseMin]) hb561 (hk2 561)]
  rw [replayLoop_step demoTrades demoMarket "2024-01-02" 368 _ _ 562 _ _
      (by norm_num [marketCloseMin]) hb562 (hk2 562)]
  rw [replayLoop_step demoTrades demoMarket "2024-01-02" 367 _ _ 563 _ _
      (by norm_num [marketCloseMin]) hb563 (hk2 563)]
  rw [replayLoop_step demoTrades demoMarket "2024-01-02" 366 _ _ 564 _ _
      (by norm_num [marketCloseMin]) hb564 (hk2 564)]
  rw [replayLoop_step demoTrades demoMarket "2024-01-02" 365 _ _ 565 _ _
      (by norm_num [marketCloseMin]) hb565 hk3]
  simp only [List.getElem?_cons_succ, List.getElem?_cons_zero]
  have hlab : timeLabelDB "2024-01-02" 565 = "2024-01-02 9:25:00 AM" := by decide
  have htime : timeLabelOut 565 = "9:25 AM" := by decide
  simp only [minutePoint, hlab, htime]
  norm_num [markClose, contribClose, demoMarket, List.foldl, side_S_ne_L,
    round2, roundHalfEven]
